import Mathlib

/-!
Verification of the pipeline execution core of the codebase-translator
repository: the retrying caller and rate limiter (src/agents/base_agent.py),
the agent checkpoint store (src/persistence/agent_checkpoint.py), the
workflow executor (src/orchestrator/hierarchical_workflow.py), and the
checkpoint/resume protocol of the file classifier and documenter agents
(src/agents/file_classifier_agent.py, src/agents/documenter_agent.py).

Each Python function relevant to the claims is shallowly embedded as an
executable Lean definition; real time is modelled by an explicit clock,
wall-clock sleeping by advancing the clock, exceptions by Option/Except,
and the file system by explicit stores and operation lists.
-/

namespace CodebaseTranslator

/-! ## String containment, as used by the retry classifier

Python: `'429' in error_str or 'rate_limit_error' in error_str`
(src/agents/base_agent.py line 49). -/

/-- Whether the first list occurs at the start of the second list. -/
def listStartsWith : List Char → List Char → Bool
  | [], _ => true
  | _ :: _, [] => false
  | a :: as, b :: bs => a == b && listStartsWith as bs

/-- Whether the pattern occurs as a contiguous run anywhere in the haystack. -/
def listHasSub (pat : List Char) : List Char → Bool
  | [] => listStartsWith pat []
  | b :: bs => listStartsWith pat (b :: bs) || listHasSub pat bs

/-- Python's `pat in s` substring test. -/
def strHasSub (pat s : String) : Bool :=
  listHasSub pat.data s.data

/-- Classification of a failure as a rate-limit/retryable error, from
`base_agent.py` line 49: `'429' in error_str or 'rate_limit_error' in error_str`. -/
def isRateLimitError (e : String) : Bool :=
  strHasSub "429" e || strHasSub "rate_limit_error" e

/-! ## Retrying caller

Embedding of `BaseAgent._execute_with_retry` (base_agent.py lines 31-61).
The attempt at index `attempt` is modelled by `f attempt`; the outcome
records how many attempts were invoked, the backoff delay inserted before
each subsequent attempt (in order), and the final result.  `result = none`
models the Python path where the `for` loop body never runs
(`max_retries = 0`) and the function implicitly returns `None`. -/

structure RetryOutcome (α : Type) where
  attempts : ℕ
  delays : List ℚ
  result : Option (Except String α)
deriving Repr

/-- The `for attempt in range(max_retries)` loop of `_execute_with_retry`.
`fuel` is the number of remaining loop iterations. -/
def retryLoop (f : ℕ → Except String α) (retry_delay : ℚ) (max_retries : ℕ) :
    ℕ → ℕ → RetryOutcome α
  | _, 0 => ⟨0, [], none⟩
  | attempt, fuel + 1 =>
    match f attempt with
    | Except.ok v => ⟨1, [], some (Except.ok v)⟩
    | Except.error e =>
      if isRateLimitError e then
        if attempt < max_retries - 1 then
          let rest := retryLoop f retry_delay max_retries (attempt + 1) fuel
          ⟨rest.attempts + 1, retry_delay * 2 ^ attempt :: rest.delays, rest.result⟩
        else
          ⟨1, [], some (Except.error e)⟩
      else
        ⟨1, [], some (Except.error e)⟩

/-- `BaseAgent._execute_with_retry`: run the loop from attempt 0 with
`max_retries` iterations available. -/
def executeWithRetry (f : ℕ → Except String α) (max_retries : ℕ) (retry_delay : ℚ) :
    RetryOutcome α :=
  retryLoop f retry_delay max_retries 0 max_retries

/-! ## Rate limiter

Embedding of `BaseAgent._apply_rate_limit` (base_agent.py lines 63-81).
Time is a rational clock; `time.sleep`/`asyncio.sleep` advances it.
`request_times` is the stored window list; `recorded` is the ghost history
of every timestamp ever appended (for stating the sliding-window bound).
The `none` result models the `ValueError` raised by `min([])` when the
limit branch is reached with an empty pruned list. -/

structure RLState where
  request_times : List ℚ
  clock : ℚ
  recorded : List ℚ
deriving Repr

/-- `self.request_times = [t for t in self.request_times if current_time - t < 60]`. -/
def pruneTimes (clock : ℚ) (ts : List ℚ) : List ℚ :=
  ts.filter (fun t => decide (clock - t < 60))

/-- The pruned window of a state. -/
def rlPruned (s : RLState) : List ℚ :=
  pruneTimes s.clock s.request_times

/-- `wait_time = 60 - (current_time - oldest_request) + 0.1`. -/
def rlWait (s : RLState) (oldest : ℚ) : ℚ :=
  60 - (s.clock - oldest) + 1 / 10

/-- One call of `_apply_rate_limit` with budget `rpm`: prune, then if the
window holds at least `rpm` entries sleep for the computed wait (when
positive) and finally append the current time. -/
def applyRateLimit (rpm : ℕ) (s : RLState) : Option RLState :=
  if rpm ≤ (rlPruned s).length then
    match (rlPruned s).min? with
    | none => none
    | some oldest =>
      let c := if 0 < rlWait s oldest then s.clock + rlWait s oldest else s.clock
      some ⟨rlPruned s ++ [c], c, s.recorded ++ [c]⟩
  else
    some ⟨rlPruned s ++ [s.clock], s.clock, s.recorded ++ [s.clock]⟩

/-- `self.rate_limit_config.get('requests_per_minute', 60)`: an unset value
defaults to 60. -/
def rpmOfConfig (cfg : Option ℕ) : ℕ :=
  cfg.getD 60

/-- One acquire by a caller that arrives `δ` seconds after the previous event. -/
def acquireStep (rpm : ℕ) (δ : ℚ) (s : RLState) : Option RLState :=
  applyRateLimit rpm { s with clock := s.clock + δ }

/-- A sequence of acquires with the given inter-arrival gaps. -/
def runAcquires (rpm : ℕ) : List ℚ → RLState → Option RLState
  | [], s => some s
  | δ :: ds, s =>
    match acquireStep rpm δ s with
    | none => none
    | some s1 => runAcquires rpm ds s1

/-- Number of timestamps of `l` lying in the 60-second window ending at `T`. -/
def countWindow (T : ℚ) (l : List ℚ) : ℕ :=
  (l.filter (fun t => decide (T - 60 < t ∧ t ≤ T))).length

/-! ## Checkpoint store

Embedding of `CheckpointManager.load_agent_state` / `get_resume_point`
(agent_checkpoint.py lines 69-105).  The checkpoint record is polymorphic
in the opaque `state` and `progress` dictionaries. -/

structure AgentCheckpoint (σ π : Type) where
  agent_name : String
  agent_phase : String
  state : σ
  progress : π
deriving Repr, DecidableEq

/-- The dictionary returned by `get_resume_point`. -/
inductive ResumePoint (σ π : Type) where
  | not_started : ResumePoint σ π
  | completed (state : σ) : ResumePoint σ π
  | resumePt (phase : String) (state : σ) (progress : π) : ResumePoint σ π
deriving Repr, DecidableEq

/-- The "status" entry of a resume point. -/
def resumeStatus : ResumePoint σ π → String
  | ResumePoint.not_started => "not_started"
  | ResumePoint.completed _ => "completed"
  | ResumePoint.resumePt _ _ _ => "resume"

/-- `CheckpointManager.load_agent_state`: a missing file gives `None`; an
existing file is parsed, and any parse/validation failure (the broad
`except` at lines 86-88) also gives `None`.  `parse` models
`json.load` plus the `AgentCheckpoint(**data)` validation. -/
def load_agent_state (file : Option String)
    (parse : String → Option (AgentCheckpoint σ π)) : Option (AgentCheckpoint σ π) :=
  match file with
  | none => none
  | some raw => parse raw

/-- `CheckpointManager.get_resume_point` (lines 90-105). -/
def get_resume_point (ck : Option (AgentCheckpoint σ π)) : ResumePoint σ π :=
  match ck with
  | none => ResumePoint.not_started
  | some c =>
    if c.agent_phase = "completed" then ResumePoint.completed c.state
    else ResumePoint.resumePt c.agent_phase c.state c.progress

/-! ## Checkpoint file writes

`CheckpointManager.save_agent_state` (lines 56-64) and
`WorkflowCheckpoint.save` (lines 247-260) both perform
`with open(checkpoint_path, 'w', ...) as f: json.dump(..., f)`:
opening the live file with mode `'w'` truncates it in place, after which
the serialized record is written into it.  The write is modelled as the
list of file operations performed, and a reader may observe the file after
any prefix of them. -/

inductive FileWriteOp where
  | openTruncate (path : String) : FileWriteOp
  | writeContent (path : String) (data : String) : FileWriteOp
  | atomicReplace (path : String) (data : String) : FileWriteOp
deriving Repr, DecidableEq

/-- The operations performed by `save_agent_state` on the checkpoint file. -/
def save_agent_state_ops (path data : String) : List FileWriteOp :=
  [FileWriteOp.openTruncate path, FileWriteOp.writeContent path data]

/-- The operations performed by `WorkflowCheckpoint.save` on `workflow.json`. -/
def workflow_save_ops (path data : String) : List FileWriteOp :=
  [FileWriteOp.openTruncate path, FileWriteOp.writeContent path data]

/-- Effect of one operation on the observable content of the file. -/
def applyFileOp (_before : Option String) : FileWriteOp → Option String
  | FileWriteOp.openTruncate _ => some ""
  | FileWriteOp.writeContent _ d => some d
  | FileWriteOp.atomicReplace _ d => some d

/-- The sequence of contents a concurrent reader of the file can observe:
the initial content and the content after each prefix of the operations. -/
def observableStates (init : Option String) (ops : List FileWriteOp) :
    List (Option String) :=
  ops.scanl applyFileOp init

/-! ## Workflow executor

Embedding of `HierarchicalCodebaseTranslatorWorkflow.run`
(hierarchical_workflow.py lines 138-260).  A phase transforms the shared
state and the on-disk checkpoint store, or raises; `run` wraps the phase
sequence in `try`, reports `success=False` on an escaped exception, and
invokes `cleanup_workflow` (which deletes the whole checkpoint directory)
only on the success path, when `cleanup_on_success` is configured. -/

/-- The checkpoint store, as the association of agent name to saved phase
status. -/
abbrev CkptStore : Type := List (String × String)

/-- Run the phases in order; stop at the first escaped exception.  Returns
the final store, the result, and how many phases were executed. -/
def runPhases (phases : List (CkptStore → σ → CkptStore × Except String σ))
    (st : CkptStore) (s : σ) : CkptStore × Except String σ × ℕ :=
  match phases with
  | [] => (st, Except.ok s, 0)
  | p :: ps =>
    match p st s with
    | (st1, Except.ok s1) =>
      let r := runPhases ps st1 s1
      (r.1, r.2.1, r.2.2 + 1)
    | (st1, Except.error e) => (st1, Except.error e, 1)

structure RunOutcome where
  success : Bool
  store : CkptStore
  phasesExecuted : ℕ
  errorMsg : Option String
  cleanupInvoked : Bool

/-- `run`: execute the phases; on success optionally clean up all
checkpoints; on an escaped exception return `success=False` leaving the
store untouched. -/
def workflowRun (cleanup_on_success : Bool)
    (phases : List (CkptStore → σ → CkptStore × Except String σ))
    (st : CkptStore) (s : σ) : RunOutcome :=
  match runPhases phases st s with
  | (st1, Except.ok _, n) =>
    ⟨true, if cleanup_on_success then [] else st1, n, none, cleanup_on_success⟩
  | (st1, Except.error e, n) => ⟨false, st1, n, some e, false⟩

/-! ## Workflow id

`HierarchicalCodebaseTranslatorWorkflow._generate_workflow_id` (lines
57-60): `content = f"{root_path}:{target_language}"` followed by
`hashlib.md5(content.encode()).hexdigest()[:12]`.  The MD5 hex digest is
an external library function, modelled as an arbitrary `md5hex`. -/

def generate_workflow_id (md5hex : String → String)
    (root_path target_language : String) : String :=
  (md5hex (root_path ++ ":" ++ target_language)).take 12

/-! ## File classifier agent

Embedding of `FileClassifierAgent.process` (file_classifier_agent.py lines
65-143).  The checkpoint `state` dictionary is an association list from
string keys to values; `.get(key, default)` returns the default when the
key is absent.  The per-file classification `_classify_file` reads the
file system, so it is a parameter `classify`; likewise
`_create_file_specifications` (which counts lines on disk) is a parameter
`mkSpecs`. -/

/-- `FileType` enum of models/hierarchical_spec.py, in declaration order. -/
inductive FileType where
  | logic | data | schema | test | entry | config | static | template | unknown
deriving Repr, DecidableEq

/-- The `.value` string of a `FileType` member. -/
def fileTypeValue : FileType → String
  | FileType.logic => "logic"
  | FileType.data => "data"
  | FileType.schema => "schema"
  | FileType.test => "test"
  | FileType.entry => "entry"
  | FileType.config => "config"
  | FileType.static => "static"
  | FileType.template => "template"
  | FileType.unknown => "unknown"

/-- Iteration order of `for file_type in FileType`. -/
def fileTypeOrder : List FileType :=
  [FileType.logic, FileType.data, FileType.schema, FileType.test, FileType.entry,
   FileType.config, FileType.static, FileType.template, FileType.unknown]

/-- A `FileSpecification` record (models/hierarchical_spec.py), restricted
to the fields the classifier constructs. -/
structure FileSpecification where
  file_path : String
  file_type : FileType
  language : String
  line_count : ℕ
  requires_analysis : Bool
deriving Repr, DecidableEq

/-- Values stored in the classifier's checkpoint `state` dictionary. -/
inductive CVal where
  | cls (m : List (String × FileType)) : CVal
  | specs (l : List FileSpecification) : CVal
deriving Repr, DecidableEq

/-- Values stored in a `progress` dictionary. -/
inductive PVal where
  | n (k : ℕ) : PVal
  | s (v : String) : PVal
deriving Repr, DecidableEq

/-- `state.get(key, {})` for a classification-map value. -/
def getClsKey (st : List (String × CVal)) (key : String) : List (String × FileType) :=
  match st.lookup key with
  | some (CVal.cls m) => m
  | _ => []

/-- `state.get(key, [])` for a file-spec list value. -/
def getSpecsKey (st : List (String × CVal)) (key : String) : List FileSpecification :=
  match st.lookup key with
  | some (CVal.specs l) => l
  | _ => []

/-- `progress.get(key, 0)` for a numeric value. -/
def getNatKey (pr : List (String × PVal)) (key : String) : ℕ :=
  match pr.lookup key with
  | some (PVal.n k) => k
  | _ => 0

/-- Insertion-order-preserving dictionary insert (Python dict semantics):
overwrite in place when the key exists, append otherwise. -/
def dictInsert (m : List (String × β)) (k : String) (v : β) : List (String × β) :=
  if (m.lookup k).isSome then
    m.map (fun p => if p.1 = k then (k, v) else p)
  else
    m ++ [(k, v)]

/-- `dict.update` over an association list of new entries. -/
def dictUpdate (m adds : List (String × β)) : List (String × β) :=
  adds.foldl (fun acc p => dictInsert acc p.1 p.2) m

/-- `file_paths[i : i + batch_size]` chunking of
`for i in range(start_index, len(file_paths), self.batch_size)`.
A zero batch size gives no chunks (in Python `range` with step 0 raises;
the classifier is always constructed with a positive batch size). -/
def chunkListAux (bs : ℕ) : ℕ → List α → List (List α)
  | _, [] => []
  | 0, _ :: _ => []
  | fuel + 1, a :: l1 => (a :: l1).take bs :: chunkListAux bs fuel ((a :: l1).drop bs)

/-- Chunking with fuel `l.length`, which suffices for any positive batch
size since every chunk consumes at least one element. -/
def chunkList (bs : ℕ) (l : List α) : List (List α) :=
  if bs = 0 then [] else chunkListAux bs l.length l

/-- Checkpoint type used by the classifier. -/
abbrev FCCkpt : Type :=
  AgentCheckpoint (List (String × CVal)) (List (String × PVal))

/-- The classification statistics of `_generate_classification_stats`
(lines 298-316). -/
structure FCStats where
  total_files : ℕ
  by_type : List (String × ℕ)
  requires_analysis : ℕ
deriving Repr, DecidableEq

/-- `_generate_classification_stats`. -/
def generate_classification_stats (m : List (String × FileType)) : FCStats where
  total_files := m.length
  by_type :=
    fileTypeOrder.filterMap (fun ft =>
      let c := (m.filter (fun p => decide (p.2 = ft))).length
      if 0 < c then some (fileTypeValue ft, c) else none)
  requires_analysis :=
    (m.filter (fun p => decide (p.2 = FileType.logic ∨ p.2 = FileType.entry))).length

/-- Outcome of one call of `FileClassifierAgent.process`: the files the
external classifier was invoked on, the SharedState keys the phase wrote
(`none` = key not written), and the sequence of `save_agent_state` calls. -/
structure FCOutcome where
  calls : List String
  out_classifications : Option (List (String × FileType))
  out_file_specs : Option (List FileSpecification)
  out_stats : Option FCStats
  savedCkpts : List FCCkpt
deriving Repr, DecidableEq

/-- The batch loop of `process` (lines 91-109): classify each batch,
merge into `classified_files`, and save a `processing` checkpoint whose
state is stored under the key `"classified_files"` with progress
`last_index = i + len(batch)`. -/
def fcBatchLoop (classify : String → FileType) (total : ℕ)
    (classified : List (String × FileType)) (idx : ℕ) :
    List (List String) → List (String × FileType) × List FCCkpt × List String
  | [] => (classified, [], [])
  | b :: rest =>
    let newcls := b.map (fun f => (f, classify f))
    let classified1 := dictUpdate classified newcls
    let ck : FCCkpt :=
      ⟨"file_classifier", "processing",
        [("classified_files", CVal.cls classified1)],
        [("last_index", PVal.n (idx + b.length)), ("total", PVal.n total),
         ("classified", PVal.n classified1.length)]⟩
    let r := fcBatchLoop classify total classified1 (idx + b.length) rest
    (r.1, ck :: r.2.1, b ++ r.2.2)

/-- `FileClassifierAgent.process`.  On a `completed` checkpoint the stored
state is copied back and the phase returns immediately; on any other
checkpoint the prior classifications are read from the key
`"classifications"` and the loop restarts at `last_index`; afterwards the
terminal checkpoint is saved with phase `completed` and the statistics are
written to SharedState. -/
def fileClassifierProcess (classify : String → FileType)
    (mkSpecs : List (String × FileType) → List FileSpecification)
    (batch_size : ℕ) (file_paths : List String) (ckpt : Option FCCkpt) : FCOutcome :=
  match ckpt with
  | some c =>
    if c.agent_phase = "completed" then
      ⟨[], some (getClsKey c.state "classifications"),
        some (getSpecsKey c.state "file_specs"), none, []⟩
    else
      fcMainLoop classify mkSpecs batch_size file_paths
        (getClsKey c.state "classifications") (getNatKey c.progress "last_index")
  | none => fcMainLoop classify mkSpecs batch_size file_paths [] 0
where
  /-- The body shared by the fresh and resumed paths. -/
  fcMainLoop (classify : String → FileType)
      (mkSpecs : List (String × FileType) → List FileSpecification)
      (batch_size : ℕ) (file_paths : List String)
      (classified0 : List (String × FileType)) (start_index : ℕ) : FCOutcome :=
    let r := fcBatchLoop classify file_paths.length classified0 start_index
      (chunkList batch_size (file_paths.drop start_index))
    let file_specs := mkSpecs r.1
    let ckDone : FCCkpt :=
      ⟨"file_classifier", "completed",
        [("classifications", CVal.cls r.1), ("file_specs", CVal.specs file_specs)],
        [("status", PVal.s "completed"), ("total_classified", PVal.n r.1.length)]⟩
    ⟨r.2.2, some r.1, some file_specs, some (generate_classification_stats r.1),
      r.2.1 ++ [ckDone]⟩

/-! ## Documenter agent

Embedding of `DocumenterAgent.process_functions_concurrent`
(documenter_agent.py lines 431-584).  Per-function analysis results are
opaque strings; `analyzeFile` abstracts the concurrent per-function
analysis of one file (the fan-out of `_analyze_function` calls, whose
results `asyncio.gather` returns in task order).  A file found in the
`processed_files` set of a resumed checkpoint is not analyzed and
contributes `(file_path, [])`. -/

/-- Class entry of `extracted_functions`. -/
structure ClassInfo where
  name : String
  methods : List String
deriving Repr, DecidableEq

/-- Per-file entry of `extracted_functions`. -/
structure FileData where
  functions : List String
  classes : List ClassInfo
deriving Repr, DecidableEq

/-- Values stored in the documenter's checkpoint `state` dictionary. -/
inductive DVal where
  | specsMap (m : List (String × List String)) : DVal
  | files (l : List String) : DVal
deriving Repr, DecidableEq

/-- `state.get('function_specs', {})`. -/
def getSpecsMapKey (st : List (String × DVal)) (key : String) :
    List (String × List String) :=
  match st.lookup key with
  | some (DVal.specsMap m) => m
  | _ => []

/-- `state.get('processed_files', [])`. -/
def getFilesKey (st : List (String × DVal)) (key : String) : List String :=
  match st.lookup key with
  | some (DVal.files l) => l
  | _ => []

/-- Checkpoint type used by the documenter. -/
abbrev DocCkpt : Type :=
  AgentCheckpoint (List (String × DVal)) (List (String × PVal))

/-- Outcome of one call of `process_functions_concurrent`. -/
structure DocOutcome where
  calls : List String
  function_specs : Option (List (String × List String))
  savedCkpts : List DocCkpt
deriving Repr, DecidableEq

/-- `total_functions` (lines 460-464). -/
def docTotalFunctions (extracted : List (String × FileData)) : ℕ :=
  (extracted.map (fun fd =>
    fd.2.functions.length + (fd.2.classes.map (fun c => c.methods.length)).sum)).sum

/-- `DocumenterAgent.process_functions_concurrent`. -/
def documenterConcurrent (analyzeFile : String → FileData → List String)
    (extracted : List (String × FileData)) (ckpt : Option DocCkpt) : DocOutcome :=
  if extracted = [] then
    -- `if not extracted_functions:` — set function_specs to {} and return
    ⟨[], some [], []⟩
  else
    match ckpt with
    | some c =>
      if c.agent_phase = "completed" then
        ⟨[], some (getSpecsMapKey c.state "function_specs"), []⟩
      else
        docMainLoop analyzeFile extracted (getFilesKey c.state "processed_files")
    | none => docMainLoop analyzeFile extracted []
where
  /-- The fan-out over files (lines 472-572), with results combined in
  file order. -/
  docMainLoop (analyzeFile : String → FileData → List String)
      (extracted : List (String × FileData)) (processed : List String) : DocOutcome :=
    let analyzed := extracted.map (fun fd =>
      if fd.1 ∈ processed then (fd.1, ([] : List String))
      else (fd.1, analyzeFile fd.1 fd.2))
    let calls := (extracted.filter (fun fd => decide (fd.1 ∉ processed))).map
      (fun fd => fd.1)
    let ckDone : DocCkpt :=
      ⟨"documenter", "completed",
        [("function_specs", DVal.specsMap analyzed),
         ("processed_files", DVal.files (analyzed.map (fun p => p.1)))],
        [("status", PVal.s "completed"),
         ("total_functions", PVal.n (docTotalFunctions extracted))]⟩
    ⟨calls, some analyzed, [ckDone]⟩

/-! ## Concrete scenarios referenced by individual results -/

/-- External classifier used in the C1 interruption scenario. -/
def c1classify : String → FileType := fun _ => FileType.logic

/-- File-spec construction used in the C1 interruption scenario. -/
def c1mkSpecs : List (String × FileType) → List FileSpecification := fun _ => []

/-- First classifier run over two files with batch size 1 (two batches). -/
def c1run1 : FCOutcome :=
  fileClassifierProcess c1classify c1mkSpecs 1 ["a.py", "b.py"] none

/-- Second classifier run resuming from the checkpoint on disk after the
first run was interrupted right after its first batch (the first
`processing` save). -/
def c1run2 : FCOutcome :=
  fileClassifierProcess c1classify c1mkSpecs 1 ["a.py", "b.py"] c1run1.savedCkpts.head?

/-- External classifier used in the C2 rerun scenario. -/
def c2classify : String → FileType := fun _ => FileType.logic

/-- File-spec construction used in the C2 rerun scenario. -/
def c2mkSpecs : List (String × FileType) → List FileSpecification :=
  fun m => m.map (fun p => ⟨p.1, p.2, "python", 1, true⟩)

/-- A complete first classifier run over one file. -/
def c2run1 : FCOutcome :=
  fileClassifierProcess c2classify c2mkSpecs 50 ["a.py"] none

/-- A second classifier run that finds the first run's terminal
(`completed`) checkpoint on disk. -/
def c2run2 : FCOutcome :=
  fileClassifierProcess c2classify c2mkSpecs 50 ["a.py"] c2run1.savedCkpts.getLast?

/-- A rate-limiter state holding 60 fresh timestamps, as after 60 calls at
time 0. -/
def c5state : RLState :=
  ⟨List.replicate 60 0, 0, List.replicate 60 0⟩

/-!
# Theorems
-/

/-- Claim C10: the workflow id is the first 12 hex digits of the MD5 hash
of `root_path + ":" + target_language`; joining with `":"` before hashing
makes the id non-injective: the distinct input pairs `("a:b", "c")` and
`("a", "b:c")` hash the same joined string `"a:b:c"` and so share one
workflow id and checkpoint lineage, for any digest function. -/
theorem workflow_id_collision_C10 (md5hex : String → String) :
    generate_workflow_id md5hex "a:b" "c" = generate_workflow_id md5hex "a" "b:c" ∧
    ("a:b", "c") ≠ ("a", "b:c") := by
  exact ⟨rfl, by decide⟩

/-- Claim C8: `get_resume_point` returns status `"not_started"` exactly
when no loadable checkpoint exists; status `"completed"` with the stored
state exactly when the stored phase is `"completed"`; and status
`"resume"` with state and progress in every other case — in particular a
`"failed"` checkpoint is reported as resumable, and the status `"failed"`
is never returned. -/
theorem resume_point_classification_C8 {σ π : Type}
    (ck : Option (AgentCheckpoint σ π)) :
    (resumeStatus (get_resume_point ck) = "not_started" ↔ ck = none) ∧
    (∀ c : AgentCheckpoint σ π, ck = some c →
      (c.agent_phase = "completed" → get_resume_point ck = ResumePoint.completed c.state) ∧
      (c.agent_phase ≠ "completed" →
        get_resume_point ck = ResumePoint.resumePt c.agent_phase c.state c.progress) ∧
      (c.agent_phase = "failed" → resumeStatus (get_resume_point ck) = "resume")) ∧
    resumeStatus (get_resume_point ck) ≠ "failed" := by
  rcases ck with _ | c
  · refine ⟨by simp [get_resume_point, resumeStatus], ?_, by simp [get_resume_point, resumeStatus]⟩
    intro c hc
    exact absurd hc (by simp)
  · by_cases h : c.agent_phase = "completed"
    · refine ⟨?_, ?_, ?_⟩
      · simp only [get_resume_point, if_pos h, resumeStatus]
        constructor
        · intro hs
          exact absurd hs (by decide)
        · intro hs
          exact absurd hs (by simp)
      · intro c1 hc1
        obtain rfl : c = c1 := by injection hc1
        refine ⟨fun _ => by simp [get_resume_point, if_pos h], fun hne => absurd h hne, ?_⟩
        intro hfail
        rw [h] at hfail
        exact absurd hfail (by decide)
      · simp only [get_resume_point, if_pos h, resumeStatus]
        decide
    · refine ⟨?_, ?_, ?_⟩
      · simp only [get_resume_point, if_neg h, resumeStatus]
        constructor
        · intro hs
          exact absurd hs (by decide)
        · intro hs
          exact absurd hs (by simp)
      · intro c1 hc1
        obtain rfl : c = c1 := by injection hc1
        refine ⟨fun hc => absurd hc h, fun _ => by simp [get_resume_point, if_neg h], ?_⟩
        intro _
        simp [get_resume_point, if_neg h, resumeStatus]
      · simp only [get_resume_point, if_neg h, resumeStatus]
        decide

/-- Witness for C8 at a concrete `"failed"` checkpoint: it is reported as
status `"resume"`. -/
theorem resume_point_classification_C8_witness :
    resumeStatus (get_resume_point
      (some (⟨"documenter", "failed", 0, 0⟩ : AgentCheckpoint ℕ ℕ))) = "resume" :=
  ((resume_point_classification_C8
    (some (⟨"documenter", "failed", 0, 0⟩ : AgentCheckpoint ℕ ℕ))).2.1
    ⟨"documenter", "failed", 0, 0⟩ rfl).2.2 rfl

/-- Claim C9: when the checkpoint file exists but cannot be parsed or
validated, `load_agent_state` returns `None` instead of raising, so
`get_resume_point` reports status `"not_started"` — a corrupted
checkpoint silently restarts the phase from zero. -/
theorem corrupt_checkpoint_C9 {σ π : Type} (file : Option String)
    (parse : String → Option (AgentCheckpoint σ π)) (raw : String)
    (hfile : file = some raw) (hparse : parse raw = none) :
    load_agent_state file parse = none ∧
    get_resume_point (load_agent_state file parse) = ResumePoint.not_started ∧
    resumeStatus (get_resume_point (load_agent_state file parse)) = "not_started" := by
  subst hfile
  simp [load_agent_state, hparse, get_resume_point, resumeStatus]

/-- Witness for C9 on a concrete garbage file whose parse fails. -/
theorem corrupt_checkpoint_C9_witness :
    load_agent_state (σ := ℕ) (π := ℕ) (some "garbage") (fun _ => none) = none ∧
    get_resume_point (load_agent_state (σ := ℕ) (π := ℕ) (some "garbage")
      (fun _ => none)) = ResumePoint.not_started ∧
    resumeStatus (get_resume_point (load_agent_state (σ := ℕ) (π := ℕ)
      (some "garbage") (fun _ => none))) = "not_started" :=
  corrupt_checkpoint_C9 (some "garbage") (fun _ => none) "garbage" rfl rfl

/-- Counterexample to claim C6: `save_agent_state` writes the checkpoint
by opening the live file in truncate mode and then writing the record
into it, so a reader between the two operations observes the truncated
file — a content that is neither the previous record nor the new one.
The operation list contains no atomic replace. -/
theorem checkpoint_write_not_atomic_C6_cex :
    observableStates (some "OLDRECORD") (save_agent_state_ops "documenter.json" "NEWRECORD") =
      [some "OLDRECORD", some "", some "NEWRECORD"] ∧
    (some "" : Option String) ∈
      observableStates (some "OLDRECORD") (save_agent_state_ops "documenter.json" "NEWRECORD") ∧
    (some "" : Option String) ≠ some "OLDRECORD" ∧
    (some "" : Option String) ≠ some "NEWRECORD" ∧
    save_agent_state_ops "documenter.json" "NEWRECORD" =
      [FileWriteOp.openTruncate "documenter.json",
       FileWriteOp.writeContent "documenter.json" "NEWRECORD"] := by
  refine ⟨rfl, ?_, by decide, by decide, rfl⟩
  rw [show observableStates (some "OLDRECORD")
      (save_agent_state_ops "documenter.json" "NEWRECORD") =
      [some "OLDRECORD", some "", some "NEWRECORD"] from rfl]
  simp

/-- Claim C6 as amended: both checkpoint writers (`save_agent_state` and
`WorkflowCheckpoint.save`) write in place by truncate-then-write, so the
sequence of states a reader can observe is exactly the old content, the
truncated (empty) file, and the new content: the write is not atomic. -/
theorem checkpoint_write_truncate_C6 (path data : String) (init : Option String) :
    observableStates init (save_agent_state_ops path data) = [init, some "", some data] ∧
    observableStates init (workflow_save_ops path data) = [init, some "", some data] :=
  ⟨rfl, rfl⟩

/-- Unfolding of one retry-loop iteration when the current attempt fails
with a retryable error and retries remain. -/
theorem retryLoop_succ_retryable {α : Type} {f : ℕ → Except String α} {d : ℚ}
    {maxR a n : ℕ} {e : String} (he : f a = Except.error e)
    (hre : isRateLimitError e = true) (h : a < maxR - 1) :
    retryLoop f d maxR a (n + 1) =
      ⟨(retryLoop f d maxR (a + 1) n).attempts + 1,
       d * 2 ^ a :: (retryLoop f d maxR (a + 1) n).delays,
       (retryLoop f d maxR (a + 1) n).result⟩ := by
  simp only [retryLoop, he, hre, if_pos h, if_true]

/-- Unfolding of one retry-loop iteration when the current attempt fails
with a retryable error but the retry budget is exhausted. -/
theorem retryLoop_succ_last {α : Type} {f : ℕ → Except String α} {d : ℚ}
    {maxR a n : ℕ} {e : String} (he : f a = Except.error e)
    (hre : isRateLimitError e = true) (h : ¬ a < maxR - 1) :
    retryLoop f d maxR a (n + 1) = ⟨1, [], some (Except.error e)⟩ := by
  simp only [retryLoop, he, hre, if_neg h, if_true]

/-- When every attempt fails with a retryable error, the retry loop
started at attempt `a` with matching fuel performs the remaining
`max_retries - a` attempts, inserts the exponential backoff delays, and
propagates the last attempt's failure. -/
theorem retryLoop_allFail {α : Type} (f : ℕ → Except String α) (d : ℚ)
    (maxR : ℕ) (hf : ∀ i, ∃ e, f i = Except.error e ∧ isRateLimitError e = true) :
    ∀ fuel a, fuel = maxR - a → a < maxR →
      (retryLoop f d maxR a fuel).attempts = maxR - a ∧
      (retryLoop f d maxR a fuel).delays =
        (List.range (maxR - 1 - a)).map (fun k => d * 2 ^ (a + k)) ∧
      ∃ e, f (maxR - 1) = Except.error e ∧
        (retryLoop f d maxR a fuel).result = some (Except.error e) := by
  intro fuel
  induction fuel with
  | zero =>
    intro a hfuel ha
    omega
  | succ n ih =>
    intro a hfuel ha
    obtain ⟨e, he, hre⟩ := hf a
    by_cases hlast : a < maxR - 1
    · have hrec := ih (a + 1) (by omega) (by omega)
      rw [retryLoop_succ_retryable he hre hlast]
      refine ⟨?_, ?_, ?_⟩
      · show (retryLoop f d maxR (a + 1) n).attempts + 1 = maxR - a
        rw [hrec.1]
        omega
      · show d * 2 ^ a :: (retryLoop f d maxR (a + 1) n).delays =
          (List.range (maxR - 1 - a)).map (fun k => d * 2 ^ (a + k))
        rw [hrec.2.1]
        have hr : maxR - 1 - a = (maxR - 1 - (a + 1)) + 1 := by omega
        rw [hr, List.range_succ_eq_map, List.map_cons, List.map_map]
        refine congrArg₂ _ (by rw [Nat.add_zero]) ?_
        refine List.map_congr_left ?_
        intro k _
        simp only [Function.comp_apply]
        refine congrArg _ (congrArg _ (by omega))
      · obtain ⟨e1, he1, hres⟩ := hrec.2.2
        exact ⟨e1, he1, hres⟩
    · have haeq : a = maxR - 1 := by omega
      rw [retryLoop_succ_last he hre hlast]
      refine ⟨by show (1 : ℕ) = maxR - a; omega, ?_, ⟨e, haeq ▸ he, rfl⟩⟩
      show ([] : List ℚ) = (List.range (maxR - 1 - a)).map (fun k => d * 2 ^ (a + k))
      have h0 : maxR - 1 - a = 0 := by omega
      rw [h0]
      simp

/-- Claim C3: if every invocation fails with a rate-limit error, the
operation is attempted exactly `max_retries` times, the delay before the
k-th retry (the (k+1)-st attempt, for k = 1, ..., max_retries - 1) is
exactly `retry_delay * 2 ^ (k - 1)` — in particular at least that much —
and the last failure is propagated; if the first invocation fails with a
non-retryable error, the operation is attempted exactly once, no backoff
delay is inserted, and the failure propagates immediately.  (Requires
`max_retries ≥ 1`; with `max_retries = 0` the Python loop body never runs
and the function silently returns `None`.) -/
theorem retry_ceiling_C3 {α : Type} (f : ℕ → Except String α)
    (maxR : ℕ) (d : ℚ) (hmax : 1 ≤ maxR) :
    ((∀ i, ∃ e, f i = Except.error e ∧ isRateLimitError e = true) →
      (executeWithRetry f maxR d).attempts = maxR ∧
      (executeWithRetry f maxR d).delays =
        (List.range (maxR - 1)).map (fun k => d * 2 ^ k) ∧
      ∃ e, f (maxR - 1) = Except.error e ∧
        (executeWithRetry f maxR d).result = some (Except.error e)) ∧
    (∀ e, f 0 = Except.error e → isRateLimitError e = false →
      (executeWithRetry f maxR d).attempts = 1 ∧
      (executeWithRetry f maxR d).delays = [] ∧
      (executeWithRetry f maxR d).result = some (Except.error e)) := by
  constructor
  · intro hf
    have h := retryLoop_allFail f d maxR hf maxR 0 (by omega) (by omega)
    refine ⟨?_, ?_, h.2.2⟩
    · rw [executeWithRetry, h.1]
      omega
    · rw [executeWithRetry, h.2.1]
      refine List.map_congr_left ?_
      intro k _
      rw [Nat.zero_add]
  · intro e he hre
    obtain ⟨m, rfl⟩ : ∃ m, maxR = m + 1 := ⟨maxR - 1, by omega⟩
    simp [executeWithRetry, retryLoop, he, hre]

/-- Witness for C3: a call that always fails with a 429 error under the
default configuration (`max_retries = 3`, `retry_delay = 5`) is attempted
3 times with backoff delays 5 and 10, and a call whose first failure is
not a rate-limit error is attempted once. -/
theorem retry_ceiling_C3_witness :
    (executeWithRetry (fun _ => (Except.error "429" : Except String ℕ)) 3 5).attempts = 3 ∧
    (executeWithRetry (fun _ => (Except.error "429" : Except String ℕ)) 3 5).delays = [5, 10] ∧
    (executeWithRetry (fun _ => (Except.error "bad input" : Except String ℕ)) 3 5).attempts = 1 := by
  have h1 := (retry_ceiling_C3 (fun _ => (Except.error "429" : Except String ℕ))
    3 5 (by decide)).1 (fun i => ⟨"429", rfl, by decide⟩)
  have h2 := (retry_ceiling_C3 (fun _ => (Except.error "bad input" : Except String ℕ))
    3 5 (by decide)).2 "bad input" rfl (by decide)
  refine ⟨h1.1, ?_, h2.1⟩
  rw [h1.2.1]
  rw [show List.range (3 - 1) = [0, 1] from rfl]
  norm_num

/-- Sequencing lemma: when a prefix of phases succeeds, running the whole
list first runs the prefix and then the rest. -/
theorem runPhases_append {σ : Type}
    (pre rest : List (CkptStore → σ → CkptStore × Except String σ))
    (st : CkptStore) (s : σ) (st1 : CkptStore) (s1 : σ) (n : ℕ)
    (h : runPhases pre st s = (st1, Except.ok s1, n)) :
    runPhases (pre ++ rest) st s =
      ((runPhases rest st1 s1).1, (runPhases rest st1 s1).2.1,
        (runPhases rest st1 s1).2.2 + n) := by
  induction pre generalizing st s n with
  | nil =>
    simp only [runPhases, Prod.mk.injEq] at h
    obtain ⟨rfl, h2, rfl⟩ := h
    injection h2 with h2
    subst h2
    simp [runPhases]
  | cons p pre ih =>
    simp only [runPhases] at h ⊢
    rcases hp : p st s with ⟨stp, rp⟩
    rw [hp] at h
    cases rp with
    | error e2 =>
      have h2 : (stp, (Except.error e2 : Except String σ), 1) = (st1, Except.ok s1, n) := h
      simp at h2
    | ok s2 =>
      have h2 : ((runPhases pre stp s2).1, (runPhases pre stp s2).2.1,
          (runPhases pre stp s2).2.2 + 1) = (st1, Except.ok s1, n) := h
      simp only [Prod.mk.injEq] at h2
      obtain ⟨h1, hA, h3⟩ := h2
      have hpre2 : runPhases pre stp s2 = (st1, Except.ok s1, n - 1) := by
        rw [Prod.ext_iff, Prod.ext_iff]
        refine ⟨h1, hA, ?_⟩
        show (runPhases pre stp s2).2.2 = n - 1
        omega
      show ((runPhases (pre ++ rest) stp s2).1, (runPhases (pre ++ rest) stp s2).2.1,
          (runPhases (pre ++ rest) stp s2).2.2 + 1) =
        ((runPhases rest st1 s1).1, (runPhases rest st1 s1).2.1,
          (runPhases rest st1 s1).2.2 + n)
      rw [ih stp s2 (n - 1) hpre2]
      simp only [Prod.mk.injEq]
      refine ⟨trivial, trivial, ?_⟩
      omega

/-- Claim C7: when a phase raises an exception that it does not convert
into a SharedState error record, no later phase executes (exactly the
successful prefix plus the failing phase run), `run` returns
`success = false`, the checkpoint store is left exactly as the failing
phase left it — so every phase checkpoint already saved with status
`completed` remains — and `cleanup_workflow` is not invoked on this path. -/
theorem workflow_failure_halts_C7 {σ : Type} (cleanup : Bool)
    (pre post : List (CkptStore → σ → CkptStore × Except String σ))
    (f : CkptStore → σ → CkptStore × Except String σ)
    (st0 : CkptStore) (s0 : σ) (st1 st2 : CkptStore) (s1 : σ) (n : ℕ) (e : String)
    (hpre : runPhases pre st0 s0 = (st1, Except.ok s1, n))
    (hf : f st1 s1 = (st2, Except.error e)) :
    workflowRun cleanup (pre ++ f :: post) st0 s0 =
      ⟨false, st2, n + 1, some e, false⟩ := by
  have happ := runPhases_append pre (f :: post) st0 s0 st1 s1 n hpre
  have hrest : runPhases (f :: post) st1 s1 = (st2, Except.error e, 1) := by
    simp only [runPhases, hf]
  rw [hrest] at happ
  simp only at happ
  rw [workflowRun, happ]
  simp [Nat.add_comm 1 n]

/-- Witness for C7: a first phase records its `completed` checkpoint, the
second raises; the run reports failure after two phases, the first
phase's `completed` checkpoint is still in the store, and cleanup is not
invoked (even though `cleanup_on_success = true`). -/
theorem workflow_failure_halts_C7_witness :
    workflowRun true
      ([fun st s => (st ++ [("project_analyzer", "completed")], Except.ok (s + 1))] ++
        (fun st _ => (st, Except.error "boom")) ::
        [fun st s => (st, Except.ok (s : ℕ))])
      [] 0 =
      ⟨false, [("project_analyzer", "completed")], 2, some "boom", false⟩ :=
  workflow_failure_halts_C7 true
    [fun st s => (st ++ [("project_analyzer", "completed")], Except.ok (s + 1))]
    [fun st s => (st, Except.ok s)]
    (fun st _ => (st, Except.error "boom"))
    [] 0 [("project_analyzer", "completed")] [("project_analyzer", "completed")]
    1 1 "boom" rfl rfl

/-- Claim C1, evaluated at the failing input: classifier over
`["a.py", "b.py"]` with batch size 1, interrupted after the first batch.
The on-disk checkpoint is the `processing` save holding `a.py`'s result
under the state key `"classified_files"`.  The resumed run does not
re-invoke the classifier on `a.py` (it only calls it on `b.py`, as the
claim requires) and does mark the phase `completed`, but because the
resume path reads the state key `"classifications"` — which the
processing save never wrote — `a.py`'s stored result is absent from both
the phase output and the terminal `completed` checkpoint, contradicting
the claim that the completed state covers all `n` items. -/
theorem resume_loses_results_C1 :
    c1run2.calls = ["b.py"] ∧
    c1run1.savedCkpts.head?.map (fun c => c.agent_phase) = some "processing" ∧
    c1run1.savedCkpts.head?.map
      (fun c => (getClsKey c.state "classified_files").lookup "a.py") =
      some (some FileType.logic) ∧
    c1run2.out_classifications = some [("b.py", FileType.logic)] ∧
    (c1run2.out_classifications.getD []).lookup "a.py" = none ∧
    c1run2.savedCkpts.getLast?.map (fun c => c.agent_phase) = some "completed" ∧
    c1run2.savedCkpts.getLast?.map
      (fun c => (getClsKey c.state "classifications").lookup "a.py") =
      some none := by
  decide

/-- Counterexample to claim C2: a second classifier run that finds the
first run's `completed` checkpoint performs zero external calls and
copies the stored classifications and file specs back identically, but
its SharedState output is not identical to the first run's — the
`classification_stats` key is only written by a full run, never by the
completed-skip path. -/
theorem idempotent_skip_C2_cex :
    c2run2.calls = [] ∧
    c2run2.out_classifications = c2run1.out_classifications ∧
    c2run2.out_file_specs = c2run1.out_file_specs ∧
    c2run1.out_stats = some ⟨1, [("logic", 1)], 1⟩ ∧
    c2run2.out_stats = none ∧
    (c2run1.out_classifications, c2run1.out_file_specs, c2run1.out_stats) ≠
      (c2run2.out_classifications, c2run2.out_file_specs, c2run2.out_stats) := by
  decide

/-- Claim C2 as amended: with a `completed` checkpoint present, rerunning
a phase performs zero external calls, saves nothing, and copies the
stored state into SharedState — the classifier's `file_classifications`
and `file_specs` and the documenter's `function_specs` equal the first
run's values — but the rerun's SharedState is not fully identical to the
first run's: the classifier writes its derived `classification_stats`
key only on a full run, not on the skip path. -/
theorem idempotent_skip_C2 (classify : String → FileType)
    (mkSpecs : List (String × FileType) → List FileSpecification)
    (bs : ℕ) (paths : List String)
    (analyzeFile : String → FileData → List String)
    (extracted : List (String × FileData)) :
    (∀ ck : FCCkpt,
      (fileClassifierProcess classify mkSpecs bs paths none).savedCkpts.getLast? = some ck →
      (fileClassifierProcess classify mkSpecs bs paths (some ck)).calls = [] ∧
      (fileClassifierProcess classify mkSpecs bs paths (some ck)).savedCkpts = [] ∧
      (fileClassifierProcess classify mkSpecs bs paths (some ck)).out_classifications =
        (fileClassifierProcess classify mkSpecs bs paths none).out_classifications ∧
      (fileClassifierProcess classify mkSpecs bs paths (some ck)).out_file_specs =
        (fileClassifierProcess classify mkSpecs bs paths none).out_file_specs ∧
      (fileClassifierProcess classify mkSpecs bs paths (some ck)).out_stats = none ∧
      (fileClassifierProcess classify mkSpecs bs paths none).out_stats.isSome = true) ∧
    (∀ ck : DocCkpt,
      (documenterConcurrent analyzeFile extracted none).savedCkpts.getLast? = some ck →
      (documenterConcurrent analyzeFile extracted (some ck)).calls = [] ∧
      (documenterConcurrent analyzeFile extracted (some ck)).savedCkpts = [] ∧
      (documenterConcurrent analyzeFile extracted (some ck)).function_specs =
        (documenterConcurrent analyzeFile extracted none).function_specs) := by
  constructor
  · intro ck hck
    have hrun : fileClassifierProcess classify mkSpecs bs paths none =
        fileClassifierProcess.fcMainLoop classify mkSpecs bs paths [] 0 := rfl
    rw [hrun] at hck ⊢
    rw [fileClassifierProcess.fcMainLoop] at hck
    simp only [List.getLast?_concat, Option.some.injEq] at hck
    subst hck
    constructor
    · rfl
    constructor
    · rfl
    refine ⟨?_, ?_, rfl, ?_⟩
    · show some (getClsKey
        [("classifications",
          CVal.cls (fcBatchLoop classify paths.length [] 0 (chunkList bs paths)).1),
         ("file_specs", CVal.specs (mkSpecs
          (fcBatchLoop classify paths.length [] 0 (chunkList bs paths)).1))]
        "classifications") = _
      rw [fileClassifierProcess.fcMainLoop]
      simp [getClsKey, List.lookup]
    · show some (getSpecsKey
        [("classifications",
          CVal.cls (fcBatchLoop classify paths.length [] 0 (chunkList bs paths)).1),
         ("file_specs", CVal.specs (mkSpecs
          (fcBatchLoop classify paths.length [] 0 (chunkList bs paths)).1))]
        "file_specs") = _
      rw [fileClassifierProcess.fcMainLoop]
      simp [getSpecsKey, List.lookup]
    · rw [fileClassifierProcess.fcMainLoop]
      rfl
  · intro ck hck
    by_cases hext : extracted = []
    · subst hext
      simp [documenterConcurrent] at hck
    · have hrun : documenterConcurrent analyzeFile extracted none =
          documenterConcurrent.docMainLoop analyzeFile extracted [] := by
        rw [documenterConcurrent, if_neg hext]
      rw [hrun] at hck ⊢
      rw [documenterConcurrent.docMainLoop] at hck
      simp only [List.getLast?_singleton, Option.some.injEq] at hck
      subst hck
      have hskip : documenterConcurrent analyzeFile extracted
          (some (⟨"documenter", "completed",
            [("function_specs", DVal.specsMap (extracted.map (fun fd =>
              if fd.1 ∈ ([] : List String) then (fd.1, ([] : List String))
              else (fd.1, analyzeFile fd.1 fd.2)))),
             ("processed_files", DVal.files ((extracted.map (fun fd =>
              if fd.1 ∈ ([] : List String) then (fd.1, ([] : List String))
              else (fd.1, analyzeFile fd.1 fd.2))).map (fun p => p.1)))],
            [("status", PVal.s "completed"),
             ("total_functions", PVal.n (docTotalFunctions extracted))]⟩ : DocCkpt)) =
          ⟨[], some (extracted.map (fun fd =>
            if fd.1 ∈ ([] : List String) then (fd.1, ([] : List String))
            else (fd.1, analyzeFile fd.1 fd.2))), []⟩ := by
        rw [documenterConcurrent, if_neg hext]
        simp [getSpecsMapKey, List.lookup]
      rw [documenterConcurrent.docMainLoop]
      rw [hskip]
      exact ⟨rfl, rfl, rfl⟩

/-- Witness for C2 as amended, at a one-file classifier run and a
one-file documenter run: the rerun on the completed checkpoint makes no
calls and drops only the statistics key. -/
theorem idempotent_skip_C2_witness :
    (fileClassifierProcess c2classify c2mkSpecs 50 ["a.py"]
      (some (⟨"file_classifier", "completed",
        [("classifications", CVal.cls [("a.py", FileType.logic)]),
         ("file_specs", CVal.specs [⟨"a.py", FileType.logic, "python", 1, true⟩])],
        [("status", PVal.s "completed"), ("total_classified", PVal.n 1)]⟩ : FCCkpt))).calls
      = [] ∧
    (fileClassifierProcess c2classify c2mkSpecs 50 ["a.py"]
      (some (⟨"file_classifier", "completed",
        [("classifications", CVal.cls [("a.py", FileType.logic)]),
         ("file_specs", CVal.specs [⟨"a.py", FileType.logic, "python", 1, true⟩])],
        [("status", PVal.s "completed"), ("total_classified", PVal.n 1)]⟩ : FCCkpt))).out_stats
      = none ∧
    (documenterConcurrent (fun _ _ => ["spec"]) [("a.py", ⟨["f"], []⟩)]
      (some (⟨"documenter", "completed",
        [("function_specs", DVal.specsMap [("a.py", ["spec"])]),
         ("processed_files", DVal.files ["a.py"])],
        [("status", PVal.s "completed"), ("total_functions", PVal.n 1)]⟩ : DocCkpt))).calls
      = [] := by
  have h1 := (idempotent_skip_C2 c2classify c2mkSpecs 50 ["a.py"]
    (fun _ _ => ["spec"]) [("a.py", ⟨["f"], []⟩)]).1
    (⟨"file_classifier", "completed",
      [("classifications", CVal.cls [("a.py", FileType.logic)]),
       ("file_specs", CVal.specs [⟨"a.py", FileType.logic, "python", 1, true⟩])],
      [("status", PVal.s "completed"), ("total_classified", PVal.n 1)]⟩ : FCCkpt)
    (by decide)
  have h2 := (idempotent_skip_C2 c2classify c2mkSpecs 50 ["a.py"]
    (fun _ _ => ["spec"]) [("a.py", ⟨["f"], []⟩)]).2
    (⟨"documenter", "completed",
      [("function_specs", DVal.specsMap [("a.py", ["spec"])]),
       ("processed_files", DVal.files ["a.py"])],
      [("status", PVal.s "completed"), ("total_functions", PVal.n 1)]⟩ : DocCkpt)
    (by decide)
  exact ⟨h1.1, h1.2.2.2.2.1, h2.1⟩

/-- Membership in a pruned window. -/
theorem mem_pruneTimes {c t : ℚ} {l : List ℚ} :
    t ∈ pruneTimes c l ↔ t ∈ l ∧ c - t < 60 := by
  simp [pruneTimes, List.mem_filter]

/-- Pruning at a later clock absorbs pruning at an earlier clock. -/
theorem pruneTimes_pruneTimes {c1 c2 : ℚ} (h : c1 ≤ c2) (l : List ℚ) :
    pruneTimes c2 (pruneTimes c1 l) = pruneTimes c2 l := by
  unfold pruneTimes
  rw [List.filter_filter]
  refine List.filter_congr ?_
  intro a _
  by_cases h2 : c2 - a < 60
  · have h1 : c1 - a < 60 := by linarith
    simp [h1, h2]
  · simp [h2]

/-- Window count of a one-element extension. -/
theorem countWindow_append (T x : ℚ) (l : List ℚ) :
    countWindow T (l ++ [x]) =
      countWindow T l + if T - 60 < x ∧ x ≤ T then 1 else 0 := by
  unfold countWindow
  rw [List.filter_append, List.length_append]
  congr 1
  by_cases hx : T - 60 < x ∧ x ≤ T
  · simp [hx]
  · simp [hx]

/-- A filter by a stronger predicate factors through the weaker one. -/
theorem filter_eq_filter_of_imp {l : List ℚ} {p q : ℚ → Bool}
    (h : ∀ t ∈ l, q t = true → p t = true) :
    l.filter q = (l.filter p).filter q := by
  rw [List.filter_filter]
  refine (List.filter_congr ?_).symm
  intro a ha
  by_cases hq : q a = true
  · rw [hq, h a ha hq]
    rfl
  · rw [Bool.eq_false_iff.mpr hq]
    simp

/-- Monotone length bound for a stronger filter. -/
theorem length_filter_le_of_imp {l : List ℚ} {p q : ℚ → Bool}
    (h : ∀ t ∈ l, q t = true → p t = true) :
    (l.filter q).length ≤ (l.filter p).length := by
  rw [filter_eq_filter_of_imp h]
  exact (List.filter_sublist _).length_le

/-- Strict length bound when some element passes the weak filter but not
the strong one. -/
theorem length_filter_lt_of_imp {l : List ℚ} {p q : ℚ → Bool}
    (h : ∀ t ∈ l, q t = true → p t = true) (o : ℚ) (ho : o ∈ l)
    (hop : p o = true) (hoq : q o = false) :
    (l.filter q).length < (l.filter p).length := by
  rw [filter_eq_filter_of_imp h]
  have hsub : List.Sublist ((l.filter p).filter q) (l.filter p) := List.filter_sublist _
  rcases lt_or_eq_of_le hsub.length_le with hlt | heq
  · exact hlt
  · exfalso
    have heqlist := hsub.eq_of_length heq
    have homem : o ∈ l.filter p := List.mem_filter.mpr ⟨ho, hop⟩
    rw [← heqlist] at homem
    have := (List.mem_filter.mp homem).2
    rw [hoq] at this
    exact absurd this (by simp)

/-- Appending a fresh timestamp commutes with pruning. -/
theorem pruneTimes_append_recent {c x : ℚ} (l : List ℚ) (h : c - x < 60) :
    pruneTimes c (l ++ [x]) = pruneTimes c l ++ [x] := by
  unfold pruneTimes
  rw [List.filter_append]
  congr 1
  simp [h]

/-- One acquire preserves the rate-limiter invariant: all recorded
timestamps are at most the clock, the stored window is a pruning of the
history, and every 60-second window of the history holds at most `rpm`
timestamps. -/
theorem applyRateLimit_inv (rpm : ℕ) (s s1 : RLState)
    (hmono : ∀ t ∈ s.recorded, t ≤ s.clock)
    (hstored : ∃ c, c ≤ s.clock ∧ s.request_times = pruneTimes c s.recorded)
    (hbound : ∀ T, countWindow T s.recorded ≤ rpm)
    (hstep : applyRateLimit rpm s = some s1) :
    (∀ t ∈ s1.recorded, t ≤ s1.clock) ∧
    (∃ c, c ≤ s1.clock ∧ s1.request_times = pruneTimes c s1.recorded) ∧
    (∀ T, countWindow T s1.recorded ≤ rpm) := by
  obtain ⟨c0, hc0, hts⟩ := hstored
  have hP : rlPruned s = pruneTimes s.clock s.recorded := by
    rw [rlPruned, hts, pruneTimes_pruneTimes hc0]
  have hPw : (rlPruned s).length = countWindow s.clock s.recorded := by
    rw [hP]
    unfold pruneTimes countWindow
    refine congrArg _ (List.filter_congr ?_)
    intro a ha
    have h1 : a ≤ s.clock := hmono a ha
    by_cases h2 : s.clock - a < 60
    · have h3 : s.clock - 60 < a := by linarith
      simp [h2, h3, h1]
    · have h3 : ¬ (s.clock - 60 < a ∧ a ≤ s.clock) := by
        intro hh
        exact h2 (by linarith [hh.1])
      simp [h2, h3]
  rw [applyRateLimit] at hstep
  by_cases hlim : rpm ≤ (rlPruned s).length
  · rw [if_pos hlim] at hstep
    rcases hmin : (rlPruned s).min? with _ | o
    · rw [hmin] at hstep
      exact absurd hstep (by simp)
    · have homem : o ∈ rlPruned s := List.min?_mem (fun a b => min_choice a b) hmin
      have ho2 : o ∈ s.recorded ∧ s.clock - o < 60 := by
        rw [hP] at homem
        exact mem_pruneTimes.mp homem
      have hwpos : 0 < rlWait s o := by
        rw [rlWait]
        linarith [ho2.2]
      simp only [hmin, if_pos hwpos] at hstep
      injection hstep with hstep
      subst hstep
      have htn : s.clock + rlWait s o = o + 60 + 1 / 10 := by
        rw [rlWait]
        ring
      refine ⟨?_, ?_, ?_⟩
      · intro t ht
        show t ≤ s.clock + rlWait s o
        rcases List.mem_append.mp ht with ht | ht
        · have := hmono t ht
          linarith
        · rw [List.mem_singleton.mp ht]
      · refine ⟨s.clock, ?_, ?_⟩
        · show s.clock ≤ s.clock + rlWait s o
          linarith
        show rlPruned s ++ [s.clock + rlWait s o] =
          pruneTimes s.clock (s.recorded ++ [s.clock + rlWait s o])
        have hd : s.clock - (s.clock + rlWait s o) < 60 := by linarith
        rw [pruneTimes_append_recent _ hd, hP]
      · intro T
        show countWindow T (s.recorded ++ [s.clock + rlWait s o]) ≤ rpm
        rw [countWindow_append]
        by_cases hT : T - 60 < s.clock + rlWait s o ∧ s.clock + rlWait s o ≤ T
        · rw [if_pos hT]
          have hTlo : o + 1 / 10 ≤ T - 60 := by
            have := hT.2
            rw [htn] at this
            linarith
          have hlt : countWindow T s.recorded < (rlPruned s).length := by
            rw [hP]
            unfold countWindow pruneTimes
            refine length_filter_lt_of_imp ?_ o ho2.1 ?_ ?_
            · intro t ht hq
              rw [decide_eq_true_eq] at hq
              rw [decide_eq_true_eq]
              linarith [hq.1]
            · rw [decide_eq_true_eq]
              exact ho2.2
            · rw [decide_eq_false_iff_not]
              intro hh
              linarith [hh.1]
          have hle : (rlPruned s).length ≤ rpm := by
            rw [hPw]
            exact hbound s.clock
          omega
        · rw [if_neg hT]
          simpa using hbound T
  · rw [if_neg hlim] at hstep
    injection hstep with hstep
    subst hstep
    refine ⟨?_, ?_, ?_⟩
    · intro t ht
      show t ≤ s.clock
      rcases List.mem_append.mp ht with ht | ht
      · exact hmono t ht
      · rw [List.mem_singleton.mp ht]
    · refine ⟨s.clock, le_refl _, ?_⟩
      show rlPruned s ++ [s.clock] = pruneTimes s.clock (s.recorded ++ [s.clock])
      have hd : s.clock - s.clock < 60 := by linarith
      rw [pruneTimes_append_recent _ hd, hP]
    · intro T
      show countWindow T (s.recorded ++ [s.clock]) ≤ rpm
      rw [countWindow_append]
      by_cases hT : T - 60 < s.clock ∧ s.clock ≤ T
      · rw [if_pos hT]
        have hlt : countWindow T s.recorded ≤ (rlPruned s).length := by
          rw [hP]
          unfold countWindow pruneTimes
          refine length_filter_le_of_imp ?_
          intro t ht hq
          rw [decide_eq_true_eq] at hq
          rw [decide_eq_true_eq]
          linarith [hq.1, hT.2]
        omega
      · rw [if_neg hT]
        simpa using hbound T

/-- The rate-limiter invariant holds along any successful acquire
sequence with nonnegative inter-arrival gaps. -/
theorem runAcquires_bound (rpm : ℕ) (ds : List ℚ) :
    (∀ δ ∈ ds, 0 ≤ δ) →
    ∀ s s2 : RLState,
      (∀ t ∈ s.recorded, t ≤ s.clock) →
      (∃ c, c ≤ s.clock ∧ s.request_times = pruneTimes c s.recorded) →
      (∀ T, countWindow T s.recorded ≤ rpm) →
      runAcquires rpm ds s = some s2 →
      ∀ T, countWindow T s2.recorded ≤ rpm := by
  induction ds with
  | nil =>
    intro _ s s2 _ _ h3 hrun
    rw [runAcquires] at hrun
    injection hrun with hrun
    subst hrun
    exact h3
  | cons δ ds ih =>
    intro hδ s s2 h1 h2 h3 hrun
    rw [runAcquires] at hrun
    rcases hst : acquireStep rpm δ s with _ | s1
    · rw [hst] at hrun
      exact absurd hrun (by simp)
    · rw [hst] at hrun
      have hδ0 : 0 ≤ δ := hδ δ (by simp)
      obtain ⟨c, hc, he⟩ := h2
      have hinv := applyRateLimit_inv rpm { s with clock := s.clock + δ } s1
        (fun t ht => le_trans (h1 t ht) (by simp; linarith))
        ⟨c, by simp; linarith, he⟩ h3 hst
      exact ih (fun δ1 hδ1 => hδ δ1 (by simp [hδ1])) s1 s2 hinv.1 hinv.2.1 hinv.2.2 hrun

/-- Claim C4: starting from the empty window, for any sequence of
`acquire()` calls with arbitrary nonnegative inter-arrival gaps, no
60-second sliding window ever contains more than `requests_per_minute`
recorded timestamps; and whenever the pruned window already holds at
least `requests_per_minute` entries, the caller's clock is advanced by
exactly `wait = 60 - (now - oldest) + 0.1` seconds before the new
timestamp is recorded. -/
theorem rate_limit_bound_C4 :
    (∀ (rpm : ℕ) (ds : List ℚ) (c0 : ℚ) (s2 : RLState),
      (∀ δ ∈ ds, 0 ≤ δ) →
      runAcquires rpm ds ⟨[], c0, []⟩ = some s2 →
      ∀ T, countWindow T s2.recorded ≤ rpm) ∧
    (∀ (rpm : ℕ) (s : RLState) (oldest : ℚ),
      rpm ≤ (rlPruned s).length →
      (rlPruned s).min? = some oldest →
      applyRateLimit rpm s =
        some ⟨rlPruned s ++ [s.clock + rlWait s oldest], s.clock + rlWait s oldest,
              s.recorded ++ [s.clock + rlWait s oldest]⟩) := by
  constructor
  · intro rpm ds c0 s2 hδ hrun T
    refine runAcquires_bound rpm ds hδ ⟨[], c0, []⟩ s2 (by simp) ⟨c0, le_refl _, rfl⟩ ?_ hrun T
    intro T1
    simp [countWindow]
  · intro rpm s o hlim hmin
    have homem : o ∈ rlPruned s := List.min?_mem (fun a b => min_choice a b) hmin
    have ho : s.clock - o < 60 := (mem_pruneTimes.mp homem).2
    have hwpos : 0 < rlWait s o := by
      rw [rlWait]
      linarith
    rw [applyRateLimit, if_pos hlim]
    simp only [hmin, if_pos hwpos]

/-- Witness for C4: the empty-window bound on the trivial acquire
sequence, and the suspension equation at a window of one fresh timestamp
with `requests_per_minute = 1` — the caller is suspended until
`60.1` seconds after the oldest entry. -/
theorem rate_limit_bound_C4_witness :
    countWindow 0 ((⟨[], 0, []⟩ : RLState).recorded) ≤ 1 ∧
    applyRateLimit 1 ⟨[0], 0, [0]⟩ =
      some ⟨[0, 601 / 10], 601 / 10, [0, 601 / 10]⟩ := by
  constructor
  · exact rate_limit_bound_C4.1 1 [] 0 ⟨[], 0, []⟩ (by simp) rfl 0
  · have hpr : rlPruned ⟨[0], 0, [0]⟩ = [0] := by
      simp [rlPruned, pruneTimes]
    have h := rate_limit_bound_C4.2 1 ⟨[0], 0, [0]⟩ 0
      (by rw [hpr]; simp)
      (by rw [hpr]; rfl)
    rw [h, hpr]
    norm_num [rlWait]

/-- Counterexample to claim C5: when `requests_per_minute` is unset, the
code does not degrade to a no-op — the key defaults to 60, so with 60
fresh timestamps in the window `acquire()` suspends the caller for 60.1
seconds (the clock jumps from 0 to 601/10) before recording. -/
theorem rate_limiter_unset_not_noop_C5_cex :
    rpmOfConfig none = 60 ∧
    c5state.clock = 0 ∧
    applyRateLimit (rpmOfConfig none) c5state =
      some ⟨List.replicate 60 (0 : ℚ) ++ [601 / 10], 601 / 10,
            List.replicate 60 (0 : ℚ) ++ [601 / 10]⟩ ∧
    (601 / 10 : ℚ) ≠ 0 := by
  refine ⟨rfl, rfl, ?_, by norm_num⟩
  have hpr : rlPruned c5state = List.replicate 60 (0 : ℚ) := by
    refine List.filter_eq_self.mpr ?_
    intro a ha
    rw [List.eq_of_mem_replicate ha]
    norm_num [c5state]
  have hmin : (rlPruned c5state).min? = some 0 := by
    rw [hpr]
    exact List.min?_replicate_of_pos (min_self _) (by norm_num)
  have hwait : rlWait c5state 0 = 601 / 10 := by
    rw [rlWait]
    show 60 - ((0 : ℚ) - 0) + 1 / 10 = 601 / 10
    norm_num
  have hwpos : 0 < rlWait c5state 0 := by
    rw [hwait]
    norm_num
  have hlim : rpmOfConfig none ≤ (rlPruned c5state).length := by
    rw [show rpmOfConfig none = 60 from rfl, hpr, List.length_replicate]
  rw [applyRateLimit, if_pos hlim]
  simp only [hmin, if_pos hwpos]
  rw [hpr, hwait]
  norm_num [c5state]

/-- Claim C5 as amended: when `requests_per_minute` exceeds the number of
stored timestamps (in particular when it is effectively infinite),
`acquire()` never suspends the caller — the clock is unchanged and the
current time is simply recorded — and it never raises; but when
`requests_per_minute` is unset it does not degrade to a no-op: it
defaults to 60 (see the counterexample, where it suspends the caller). -/
theorem rate_limiter_degradation_C5 (rpm : ℕ) (s : RLState)
    (h : s.request_times.length < rpm) :
    applyRateLimit rpm s =
      some ⟨rlPruned s ++ [s.clock], s.clock, s.recorded ++ [s.clock]⟩ ∧
    rpmOfConfig none = 60 := by
  have hle : (rlPruned s).length ≤ s.request_times.length := by
    show (s.request_times.filter _).length ≤ s.request_times.length
    exact List.length_filter_le _ _
  refine ⟨?_, rfl⟩
  rw [applyRateLimit, if_neg (by omega)]

/-- Witness for C5 as amended: with an empty window and
`requests_per_minute = 1`, `acquire()` records the current time without
suspending. -/
theorem rate_limiter_degradation_C5_witness :
    applyRateLimit 1 ⟨[], (0 : ℚ), []⟩ = some ⟨[(0 : ℚ)], 0, [0]⟩ :=
  (rate_limiter_degradation_C5 1 ⟨[], (0 : ℚ), []⟩ (by decide)).1

end CodebaseTranslator
